import Mathlib

/-!
Verification of the clustering-and-layout core and the timestamp
normalization pipeline of the `timeline_viz` repository.

The Python sources are embedded shallowly:

* matplotlib date numbers (fractional days) are modelled as rationals `ℚ`;
* `numpy` arrays of dates are modelled as `List ℚ`;
* Python slices `xs[a:b]` become `(xs.drop a).take (b - a)`;
* `datetime` objects become a record of calendar fields;
* `pandas` missing values (`NaT`) become `Option`.

Each section names the Python function it embeds.
-/

namespace TimelineViz

/-! ## `timeline.find_clusters` (src/timeline.py, lines 60-105)

```
if len(dates_num) <= 1:
    return [dates_num], [[0]] if len(dates_num) == 1 else [[], []]
gaps = np.diff(dates_num)
break_indices = np.where(gaps > threshold)[0]
clusters = []; cluster_indices = []; start_idx = 0
for idx in break_indices:
    clusters.append(dates_num[start_idx:idx + 1])
    cluster_indices.append(list(range(start_idx, idx + 1)))
    start_idx = idx + 1
clusters.append(dates_num[start_idx:])
cluster_indices.append(list(range(start_idx, len(dates_num))))
return clusters, cluster_indices
```

Note the operator precedence on the degenerate return: the conditional
expression only selects the second component, so for empty input the
function returns `([[]], [[], []])`. -/

/-- Python slice `l[a:b]` (for `0 ≤ a ≤ b`). -/
def seg (l : List ℚ) (a b : ℕ) : List ℚ :=
  (l.drop a).take (b - a)

/-- The consecutive gap `dates_num[i+1] - dates_num[i]`, i.e. `np.diff(dates_num)[i]`. -/
def gapAt (dates : List ℚ) (i : ℕ) : ℚ :=
  dates.getD (i + 1) 0 - dates.getD i 0

/-- `np.where(np.diff(dates_num) > threshold)[0]`: the ascending list of indices
whose consecutive gap strictly exceeds the threshold. -/
def breakIndices (dates : List ℚ) (threshold : ℚ) : List ℕ :=
  (List.range (dates.length - 1)).filter (fun i => threshold < gapAt dates i)

/-- The `for idx in break_indices` loop of `find_clusters`, plus the trailing
append of the final cluster: at each break index `b` it emits the slice
`dates[start:b+1]` and index range `[start, …, b]`, then continues from
`b + 1`; after the last break it emits `dates[start:]` and
`range(start, len(dates))`. -/
def clusterLoop (dates : List ℚ) : ℕ → List ℕ → List (List ℚ) × List (List ℕ)
  | start, [] =>
      ([seg dates start dates.length], [List.range' start (dates.length - start)])
  | start, b :: bs =>
      let rest := clusterLoop dates (b + 1) bs
      (seg dates start (b + 1) :: rest.1, List.range' start (b + 1 - start) :: rest.2)

/-- `timeline.find_clusters`. -/
def find_clusters (dates : List ℚ) (threshold : ℚ) : List (List ℚ) × List (List ℕ) :=
  if dates.length ≤ 1 then
    ([dates], if dates.length = 1 then [[0]] else [[], []])
  else
    clusterLoop dates 0 (breakIndices dates threshold)

/-- The spec's scenario: four dates with a gap of 8 days in the middle and a
threshold of 5 days give two clusters. -/
lemma find_clusters_scenario :
    find_clusters [1, 2, 10, 11] 5 = ([[1, 2], [10, 11]], [[0, 1], [2, 3]]) := by
  norm_num [find_clusters, breakIndices, gapAt, List.range_succ, clusterLoop, seg, List.range']

/-! ## Partition property (claim C1) -/

lemma seg_append (l : List ℚ) {a b c : ℕ} (hab : a ≤ b) (hbc : b ≤ c) :
    seg l a b ++ seg l b c = seg l a c := by
  unfold seg
  rw [show c - a = (b - a) + (c - b) by omega, List.take_add, List.drop_drop,
    show a + (b - a) = b by omega]

lemma range'_glue {start b len : ℕ} (h1 : start ≤ b + 1) (h2 : b + 1 ≤ len) :
    List.range' start (b + 1 - start) ++ List.range' (b + 1) (len - (b + 1)) =
      List.range' start (len - start) := by
  have h := List.range'_append start (b + 1 - start) (len - (b + 1)) 1
  rw [show start + 1 * (b + 1 - start) = b + 1 by omega] at h
  rw [show len - (b + 1) + (b + 1 - start) = len - start by omega] at h
  exact h

/-- Flattening the loop's output reconstructs the tail slice of the input
(and the index lists flatten to the corresponding index range), as long as
the break indices are strictly ascending and in bounds. -/
lemma clusterLoop_flatten (dates : List ℚ) :
    ∀ (bs : List ℕ) (start : ℕ),
      (∀ b ∈ bs, start ≤ b + 1 ∧ b + 1 ≤ dates.length) →
      bs.Pairwise (· < ·) →
      (clusterLoop dates start bs).1.flatten = seg dates start dates.length ∧
      (clusterLoop dates start bs).2.flatten = List.range' start (dates.length - start) := by
  intro bs
  induction bs with
  | nil =>
    intro start _ _
    constructor <;> simp [clusterLoop]
  | cons b bs ih =>
    intro start hmem hpw
    obtain ⟨hb1, hb2⟩ := hmem b (by simp)
    obtain ⟨hhd, htl⟩ := List.pairwise_cons.mp hpw
    have ih' := ih (b + 1)
      (fun x hx => ⟨by have := hhd x hx; omega, (hmem x (by simp [hx])).2⟩) htl
    simp only [clusterLoop, List.flatten_cons]
    exact ⟨by rw [ih'.1, seg_append dates hb1 hb2],
           by rw [ih'.2, range'_glue hb1 hb2]⟩

lemma breakIndices_bounds (dates : List ℚ) (threshold : ℚ) :
    ∀ b ∈ breakIndices dates threshold, b + 1 < dates.length := by
  intro b hb
  rcases List.mem_filter.mp hb with ⟨hr, _⟩
  have := List.mem_range.mp hr
  omega

lemma breakIndices_pairwise (dates : List ℚ) (threshold : ℚ) :
    (breakIndices dates threshold).Pairwise (· < ·) :=
  (List.pairwise_lt_range _).filter _

/-- **C1.** For every positive threshold and ascending-sorted date list, the
clusters returned by `find_clusters`, concatenated in order, reconstruct the
input exactly, and the returned cluster index lists concatenate to the index
range `0, …, n-1` in order. -/
theorem find_clusters_partition (dates : List ℚ) (threshold : ℚ)
    (hth : 0 < threshold) (hsorted : List.Sorted (· ≤ ·) dates) :
    (find_clusters dates threshold).1.flatten = dates ∧
    (find_clusters dates threshold).2.flatten = List.range dates.length := by
  unfold find_clusters
  by_cases h : dates.length ≤ 1
  · rw [if_pos h]
    refine ⟨by simp, ?_⟩
    by_cases h1 : dates.length = 1
    · rw [if_pos h1, h1]
      simp [List.range_succ]
    · have h0 : dates.length = 0 := by omega
      rw [if_neg h1, h0]
      simp
  · rw [if_neg h]
    have hmem : ∀ b ∈ breakIndices dates threshold, 0 ≤ b + 1 ∧ b + 1 ≤ dates.length := by
      intro b hb
      have := breakIndices_bounds dates threshold b hb
      omega
    obtain ⟨h1, h2⟩ :=
      clusterLoop_flatten dates (breakIndices dates threshold) 0 hmem
        (breakIndices_pairwise dates threshold)
    refine ⟨?_, ?_⟩
    · rw [h1]
      simp [seg]
    · rw [h2]
      simp [List.range_eq_range']

/-- Witness for C1 at the spec's own scenario input. -/
theorem find_clusters_partition_witness :
    (find_clusters [1, 2, 10, 11] 5).1.flatten = [1, 2, 10, 11] ∧
    (find_clusters [1, 2, 10, 11] 5).2.flatten = List.range 4 :=
  find_clusters_partition [1, 2, 10, 11] 5 (by norm_num)
    (by norm_num [List.sorted_cons])

/-! ## Gap properties of the clustering (claim C2) -/

lemma seg_getElem? (l : List ℚ) {a e k : ℕ} (hk : k < e - a) :
    (seg l a e)[k]? = l[a + k]? := by
  unfold seg
  rw [List.getElem?_take, if_pos hk, List.getElem?_drop]

lemma seg_getD (l : List ℚ) {a e k : ℕ} (hk : k < e - a) :
    (seg l a e).getD k 0 = l.getD (a + k) 0 := by
  rw [List.getD_eq_getElem?_getD, List.getD_eq_getElem?_getD, seg_getElem? l hk]

lemma seg_length (l : List ℚ) (a e : ℕ) :
    (seg l a e).length = (e - a) ⊓ (l.length - a) := by
  simp [seg]

lemma seg_gap_eq (l : List ℚ) {a e k : ℕ} (hk : k + 1 < e - a) :
    (seg l a e).getD (k + 1) 0 - (seg l a e).getD k 0 = gapAt l (a + k) := by
  rw [seg_getD l hk, seg_getD l (show k < e - a by omega)]
  unfold gapAt
  rw [show a + (k + 1) = a + k + 1 by omega]

/-- Inside a cluster emitted by the loop, consecutive elements are consecutive
input elements whose index is not a break index, so their gap is within the
threshold. -/
lemma clusterLoop_within (dates : List ℚ) (threshold : ℚ) :
    ∀ (bs : List ℕ) (start : ℕ),
      bs.Pairwise (· < ·) →
      (∀ x ∈ bs, start ≤ x) →
      (∀ j, start ≤ j → j + 1 < dates.length → j ∉ bs → gapAt dates j ≤ threshold) →
      ∀ c ∈ (clusterLoop dates start bs).1, ∀ k, k + 1 < c.length →
        c.getD (k + 1) 0 - c.getD k 0 ≤ threshold := by
  intro bs
  induction bs with
  | nil =>
    intro start _ _ hno c hc k hk
    simp only [clusterLoop, List.mem_singleton] at hc
    subst hc
    rw [seg_length] at hk
    have hklt : k + 1 < dates.length - start := by omega
    rw [seg_gap_eq dates hklt]
    exact hno (start + k) (by omega) (by omega) (by simp)
  | cons b bs ih =>
    intro start hpw hge hno c hc k hk
    obtain ⟨hhd, htl⟩ := List.pairwise_cons.mp hpw
    have hsb : start ≤ b := hge b (by simp)
    simp only [clusterLoop, List.mem_cons] at hc
    rcases hc with hc | hc
    · subst hc
      rw [seg_length] at hk
      have hk1 : k + 1 < b + 1 - start := by omega
      have hk2 : k + 1 < dates.length - start := by omega
      rw [seg_gap_eq dates hk1]
      refine hno (start + k) (by omega) (by omega) ?_
      intro hmem
      rcases List.mem_cons.mp hmem with h | h
      · omega
      · have := hhd _ h
        omega
    · exact ih (b + 1) htl (fun x hx => by have := hhd x hx; omega)
        (fun j hj hj2 hnot => hno j (by omega)  hj2 (by
          intro hmem
          rcases List.mem_cons.mp hmem with h | h
          · omega
          · exact hnot h)) c hc k hk

lemma seg_headD (l : List ℚ) {a e : ℕ} (hae : a < e) :
    (seg l a e).headD 0 = l.getD a 0 := by
  rw [List.headD_eq_head?, List.head?_eq_getElem?,
    seg_getElem? l (show 0 < e - a by omega), Nat.add_zero, List.getD_eq_getElem?_getD]

lemma seg_getLastD (l : List ℚ) {a e : ℕ} (hae : a < e) (hel : e ≤ l.length) :
    (seg l a e).getLastD 0 = l.getD (e - 1) 0 := by
  rw [List.getLastD_eq_getLast?, List.getLast?_eq_getElem?, seg_length,
    show (e - a) ⊓ (l.length - a) = e - a by omega,
    seg_getElem? l (show e - a - 1 < e - a by omega),
    show a + (e - a - 1) = e - 1 by omega, List.getD_eq_getElem?_getD]

/-- Between two neighbouring clusters emitted by the loop, the boundary gap is
a break index, hence strictly above the threshold. -/
lemma clusterLoop_adjacent (dates : List ℚ) (threshold : ℚ) :
    ∀ (bs : List ℕ) (start : ℕ),
      bs.Pairwise (· < ·) →
      (∀ x ∈ bs, start ≤ x ∧ x + 1 < dates.length) →
      (∀ x ∈ bs, threshold < gapAt dates x) →
      ∀ i c₁ c₂, (clusterLoop dates start bs).1[i]? = some c₁ →
        (clusterLoop dates start bs).1[i + 1]? = some c₂ →
        threshold < c₂.headD 0 - c₁.getLastD 0 := by
  intro bs
  induction bs with
  | nil =>
    intro start _ _ _ i c₁ c₂ _ h2
    rw [show (clusterLoop dates start []).1 = [seg dates start dates.length] from rfl,
      List.getElem?_eq_none (by simp)] at h2
    exact Option.noConfusion h2
  | cons b bs ih =>
    intro start hpw hbd hyes i c₁ c₂ h1 h2
    obtain ⟨hhd, htl⟩ := List.pairwise_cons.mp hpw
    obtain ⟨hsb, hblen⟩ := hbd b (by simp)
    simp only [clusterLoop] at h1 h2
    cases i with
    | zero =>
      rw [List.getElem?_cons_zero, Option.some_inj] at h1
      rw [List.getElem?_cons_succ] at h2
      subst h1
      have hlast : (seg dates start (b + 1)).getLastD 0 = dates.getD b 0 := by
        rw [seg_getLastD dates (show start < b + 1 by omega) (by omega)]
        norm_num
      have hstep : threshold < dates.getD (b + 1) 0 - dates.getD b 0 := hyes b (by simp)
      cases bs with
      | nil =>
        simp only [clusterLoop, List.getElem?_cons_zero, Option.some_inj] at h2
        subst h2
        rw [seg_headD dates hblen, hlast]
        exact hstep
      | cons b' bs' =>
        simp only [clusterLoop, List.getElem?_cons_zero, Option.some_inj] at h2
        subst h2
        have hb' : b < b' := hhd b' (by simp)
        rw [seg_headD dates (show b + 1 < b' + 1 by omega), hlast]
        exact hstep
    | succ n =>
      rw [List.getElem?_cons_succ] at h1 h2
      exact ih (b + 1) htl (fun x hx => ⟨by have := hhd x hx; omega, (hbd x (by simp [hx])).2⟩)
        (fun x hx => hyes x (by simp [hx])) n c₁ c₂ h1 h2

/-- **C2.** For every positive threshold and sorted input: within any returned
cluster, consecutive members differ by at most the threshold; and across any
two neighbouring clusters, the first member of the later cluster exceeds the
last member of the earlier one by strictly more than the threshold. -/
theorem find_clusters_gap_separation (dates : List ℚ) (threshold : ℚ)
    (hth : 0 < threshold) (hsorted : List.Sorted (· ≤ ·) dates) :
    (∀ c ∈ (find_clusters dates threshold).1, ∀ k, k + 1 < c.length →
        c.getD (k + 1) 0 - c.getD k 0 ≤ threshold) ∧
    (∀ i c₁ c₂, (find_clusters dates threshold).1[i]? = some c₁ →
        (find_clusters dates threshold).1[i + 1]? = some c₂ →
        threshold < c₂.headD 0 - c₁.getLastD 0) := by
  unfold find_clusters
  by_cases h : dates.length ≤ 1
  · rw [if_pos h]
    constructor
    · intro c hc k hk
      simp only [List.mem_singleton] at hc
      subst hc
      exact absurd hk (by omega)
    · intro i c₁ c₂ _ h2
      rw [List.getElem?_eq_none (by simp)] at h2
      exact Option.noConfusion h2
  · rw [if_neg h]
    constructor
    · refine clusterLoop_within dates threshold _ 0 (breakIndices_pairwise dates threshold)
        (fun x _ => Nat.zero_le x) ?_
      intro j _ hj hnot
      by_contra hgt
      push_neg at hgt
      exact hnot (List.mem_filter.mpr ⟨List.mem_range.mpr (by omega), by simpa using hgt⟩)
    · refine clusterLoop_adjacent dates threshold _ 0 (breakIndices_pairwise dates threshold)
        (fun x hx => ⟨Nat.zero_le x, breakIndices_bounds dates threshold x hx⟩) ?_
      intro x hx
      simpa using (List.mem_filter.mp hx).2

/-- Witness for C2 on the spec's scenario input, with the per-cluster gap
bound checked inside the first cluster and the separation checked across the
two clusters. -/
theorem find_clusters_gap_separation_witness :
    (([1, 2] : List ℚ).getD 1 0 - ([1, 2] : List ℚ).getD 0 0 ≤ 5) ∧
    ((5 : ℚ) < ([10, 11] : List ℚ).headD 0 - ([1, 2] : List ℚ).getLastD 0) := by
  have h := find_clusters_gap_separation [1, 2, 10, 11] 5 (by norm_num)
    (by norm_num [List.sorted_cons])
  exact ⟨h.1 [1, 2] (by rw [find_clusters_scenario]; simp) 0 (by norm_num),
         h.2 0 [1, 2] [10, 11] (by rw [find_clusters_scenario]; rfl)
           (by rw [find_clusters_scenario]; rfl)⟩

/-! ## Degenerate inputs (claim C3)

The spec says an empty input yields an empty cluster sequence.  Because the
ternary in the degenerate `return` only covers the second component, the code
actually returns one (empty) cluster together with two empty index lists. -/

/-- Counterexample for C3: on the empty input the code does not return an
empty cluster sequence — it returns a one-element list holding an empty
cluster (with index lists `[[], []]`). -/
theorem find_clusters_empty_counterexample :
    (find_clusters ([] : List ℚ) 5).1 ≠ [] ∧
    find_clusters ([] : List ℚ) 5 = ([[]], [[], []]) := by
  norm_num [find_clusters]

/-- **C3 (amended).** For every positive threshold, a single-event input gives
exactly one cluster containing that event (with index list `[[0]]`), but the
empty input gives one empty cluster and two empty index lists rather than an
empty cluster sequence. -/
theorem find_clusters_degenerate (threshold : ℚ) (hth : 0 < threshold) :
    find_clusters [] threshold = ([[]], [[], []]) ∧
    ∀ d : ℚ, find_clusters [d] threshold = ([[d]], [[0]]) := by
  refine ⟨by norm_num [find_clusters], fun d => by norm_num [find_clusters]⟩

/-- Witness for (amended) C3 at threshold 5 and the single date 7. -/
theorem find_clusters_degenerate_witness :
    find_clusters [] 5 = ([[]], [[], []]) ∧ find_clusters [(7 : ℚ)] 5 = ([[7]], [[0]]) :=
  ⟨(find_clusters_degenerate 5 (by norm_num)).1,
   (find_clusters_degenerate 5 (by norm_num)).2 7⟩

/-! ## Threshold validation (claim C4)

Only `plot_multiple_timelines` validates `threshold_days`
(src/timeline.py lines 443-445):

```
if threshold_days <= 0:
    raise ValueError("threshold_days must be positive")
```

`find_clusters` (and the single-timeline path `plot_timeline`) performs no
validation and happily clusters with a non-positive threshold. -/

/-- The `threshold_days` validation of `plot_multiple_timelines`. -/
def plot_multiple_timelines_threshold_check (threshold : ℚ) : Except String Unit :=
  if threshold ≤ 0 then Except.error "threshold_days must be positive" else Except.ok ()

/-- Counterexample for C4: invoking the clustering operation `find_clusters`
itself with `threshold_days = 0` on a non-empty input raises nothing and
produces a clustering result. -/
theorem find_clusters_no_threshold_validation :
    find_clusters [(0 : ℚ), 1] 0 = ([[0], [1]], [[0], [1]]) := by
  norm_num [find_clusters, breakIndices, gapAt, List.range_succ, clusterLoop, seg, List.range']

/-- **C4 (amended).** A non-positive `threshold_days` is rejected (with a
`ValueError`) only by the batch entry point `plot_multiple_timelines`;
`find_clusters` itself does not validate the threshold and still returns a
clustering for non-empty input. -/
theorem threshold_check_batch_only (threshold : ℚ) (hle : threshold ≤ 0) :
    plot_multiple_timelines_threshold_check threshold =
      Except.error "threshold_days must be positive" ∧
    (find_clusters [(0 : ℚ), 1] threshold).1 = [[0], [1]] := by
  constructor
  · simp [plot_multiple_timelines_threshold_check, hle]
  · have h1 : threshold < 1 := by linarith
    norm_num [find_clusters, breakIndices, gapAt, List.range_succ, clusterLoop, seg,
      List.range', h1]

/-- Witness for (amended) C4 at threshold 0. -/
theorem threshold_check_batch_only_witness :
    plot_multiple_timelines_threshold_check 0 =
      Except.error "threshold_days must be positive" ∧
    (find_clusters [(0 : ℚ), 1] 0).1 = [[0], [1]] :=
  threshold_check_batch_only 0 (by norm_num)

/-! ## Per-cluster layout (claim C9)

`plot_timeline` (src/timeline.py lines 232-246) derives, for each cluster,

```
gridspec_kw={'width_ratios': [len(c) for c in clusters]}
...
time_range = max(cluster) - min(cluster)
padding = time_range * 0.15 if len(cluster) > 1 else 0.1
ax.set_xlim(min(cluster) - padding, max(cluster) + padding)
```
-/

/-- Python `max(cluster)` (clusters are never empty when this runs). -/
def listMax : List ℚ → ℚ
  | [] => 0
  | x :: xs => xs.foldl max x

/-- Python `min(cluster)`. -/
def listMin : List ℚ → ℚ
  | [] => 0
  | x :: xs => xs.foldl min x

/-- The per-cluster layout record derived by the plotting loop. -/
structure ClusterLayout where
  width_ratio : ℕ
  padding : ℚ
  x_lo : ℚ
  x_hi : ℚ

/-- Layout of one cluster: width ratio `len(cluster)`, padding
`0.15 * (max - min)` for two or more events else the fixed `0.1`, and the
padded x-limits. -/
def layout_cluster (cluster : List ℚ) : ClusterLayout :=
  let time_range := listMax cluster - listMin cluster
  let padding := if 1 < cluster.length then time_range * (3 / 20) else 1 / 10
  ⟨cluster.length, padding, listMin cluster - padding, listMax cluster + padding⟩

/-- The layout of all clusters, in cluster order. -/
def plot_layout (dates : List ℚ) (threshold : ℚ) : List ClusterLayout :=
  ((find_clusters dates threshold).1).map layout_cluster

lemma clusterLoop_ne_nil (dates : List ℚ) :
    ∀ (bs : List ℕ) (start : ℕ),
      bs.Pairwise (· < ·) →
      (∀ x ∈ bs, start ≤ x ∧ x + 1 < dates.length) →
      start < dates.length →
      ∀ c ∈ (clusterLoop dates start bs).1, c ≠ [] := by
  intro bs
  induction bs with
  | nil =>
    intro start _ _ hstart c hc
    simp only [clusterLoop, List.mem_singleton] at hc
    subst hc
    refine List.ne_nil_of_length_pos ?_
    rw [seg_length]
    omega
  | cons b bs ih =>
    intro start hpw hbd hstart c hc
    obtain ⟨hhd, htl⟩ := List.pairwise_cons.mp hpw
    obtain ⟨hsb, hblen⟩ := hbd b (by simp)
    simp only [clusterLoop, List.mem_cons] at hc
    rcases hc with hc | hc
    · subst hc
      refine List.ne_nil_of_length_pos ?_
      rw [seg_length]
      omega
    · exact ih (b + 1) htl
        (fun x hx => ⟨by have := hhd x hx; omega, (hbd x (by simp [hx])).2⟩) (by omega) c hc

/-- On any non-empty input, every cluster returned by `find_clusters` is
non-empty. -/
lemma find_clusters_clusters_ne_nil (dates : List ℚ) (threshold : ℚ)
    (hne : dates ≠ []) :
    ∀ c ∈ (find_clusters dates threshold).1, c ≠ [] := by
  unfold find_clusters
  by_cases h : dates.length ≤ 1
  · rw [if_pos h]
    intro c hc
    simp only [List.mem_singleton] at hc
    subst hc
    exact hne
  · rw [if_neg h]
    refine clusterLoop_ne_nil dates _ 0 (breakIndices_pairwise dates threshold) ?_ (by omega)
    intro x hx
    exact ⟨Nat.zero_le x, breakIndices_bounds dates threshold x hx⟩

/-- **C9.** For every cluster of a non-empty input, the rendering layout
assigns a width ratio equal to the cluster's event count, and an x-padding of
15% of the cluster's time span when the cluster has at least two events, or
the fixed minimal padding 0.1 when it has exactly one event. -/
theorem plot_layout_width_padding (dates : List ℚ) (threshold : ℚ)
    (hne : dates ≠ []) :
    ∀ (i : ℕ) (c : List ℚ), (find_clusters dates threshold).1[i]? = some c →
      (plot_layout dates threshold)[i]? = some (layout_cluster c) ∧
      (layout_cluster c).width_ratio = c.length ∧ 1 ≤ c.length ∧
      (2 ≤ c.length → (layout_cluster c).padding = (listMax c - listMin c) * (3 / 20)) ∧
      (c.length = 1 → (layout_cluster c).padding = 1 / 10) := by
  intro i c hc
  have hmem : c ∈ (find_clusters dates threshold).1 := List.getElem?_mem hc
  have hpos : 1 ≤ c.length :=
    List.length_pos.mpr (find_clusters_clusters_ne_nil dates threshold hne c hmem)
  refine ⟨?_, rfl, hpos, ?_, ?_⟩
  · show ((find_clusters dates threshold).1.map layout_cluster)[i]? = some (layout_cluster c)
    rw [List.getElem?_map, hc, Option.map_some']
  · intro h2
    simp only [layout_cluster]
    rw [if_pos (by omega)]
  · intro h1
    simp only [layout_cluster]
    rw [if_neg (by omega)]

/-- Witness for C9: in the scenario input, the first cluster `[1, 2]` has
width ratio 2 and padding 15% of its 1-day span. -/
theorem plot_layout_width_padding_witness :
    (plot_layout [1, 2, 10, 11] 5)[0]? = some (layout_cluster [1, 2]) ∧
    (layout_cluster ([1, 2] : List ℚ)).width_ratio = 2 ∧ 1 ≤ ([1, 2] : List ℚ).length ∧
    (2 ≤ ([1, 2] : List ℚ).length →
      (layout_cluster ([1, 2] : List ℚ)).padding = (listMax [1, 2] - listMin [1, 2]) * (3 / 20)) ∧
    (([1, 2] : List ℚ).length = 1 → (layout_cluster ([1, 2] : List ℚ)).padding = 1 / 10) := by
  have h := plot_layout_width_padding [1, 2, 10, 11] 5 (by simp) 0 [1, 2]
    (by rw [find_clusters_scenario]; rfl)
  simpa using h

/-! ## Timezone normalization (claim C5)

`utils.parse_timestamps` (src/utils.py lines 220-238) normalizes timezones:

```
has_tz = any(not pd.isna(ts) and ts.tzinfo is not None for ts in ts_series)
if has_tz:
    def normalize_timestamp(ts):
        if pd.isna(ts):
            return pd.NaT
        if ts.tzinfo is not None:
            return ts.astimezone(pytz.UTC).replace(tzinfo=None)
        return ts
    return ts_series.apply(normalize_timestamp)
return ts_series
```

A timestamp is modelled by its wall-clock reading (microseconds since the
epoch of the displayed digits) together with an optional UTC offset;
`astimezone(pytz.UTC)` subtracts the offset from the wall clock, and
`replace(tzinfo=None)` drops the offset.  `pd.NaT` is `none`. -/

/-- A (possibly timezone-aware) timestamp value: wall-clock reading in
microseconds, plus the UTC offset it carries, if any. -/
structure PyTimestamp where
  wall : ℤ
  off : Option ℤ
deriving DecidableEq

/-- The absolute moment a timestamp denotes (naive values are read as UTC). -/
def instant (ts : PyTimestamp) : ℤ :=
  match ts.off with
  | some o => ts.wall - o
  | none => ts.wall

/-- The inner `normalize_timestamp` of `parse_timestamps`. -/
def normalize_timestamp : Option PyTimestamp → Option PyTimestamp
  | none => none
  | some ⟨w, some o⟩ => some ⟨w - o, none⟩
  | some ⟨w, none⟩ => some ⟨w, none⟩

/-- `not pd.isna(ts) and ts.tzinfo is not None` for one entry. -/
def entryHasTz : Option PyTimestamp → Bool
  | some t => t.off.isSome
  | none => false

/-- The timezone-normalization stage of `parse_timestamps` on a whole column:
the per-value normalizer is applied only when some entry is aware. -/
def normalize_tz_series (s : List (Option PyTimestamp)) : List (Option PyTimestamp) :=
  if s.any entryHasTz then s.map normalize_timestamp else s

/-- **C5.** Normalizing an aware timestamp converts it to UTC and strips the
offset, preserving the absolute moment; naive timestamps are left unchanged
(both per value and through the column-level stage); and any two aware
representations of the same moment normalize to the identical naive value. -/
theorem normalize_timestamp_utc :
    (∀ (ts : PyTimestamp) (o : ℤ), ts.off = some o →
        normalize_timestamp (some ts) = some ⟨ts.wall - o, none⟩ ∧
        instant ⟨ts.wall - o, none⟩ = instant ts) ∧
    (∀ ts : PyTimestamp, ts.off = none → normalize_timestamp (some ts) = some ts) ∧
    (∀ t₁ t₂ : PyTimestamp, t₁.off.isSome → t₂.off.isSome → instant t₁ = instant t₂ →
        normalize_timestamp (some t₁) = normalize_timestamp (some t₂)) ∧
    (∀ (s : List (Option PyTimestamp)) (i : ℕ) (ts : PyTimestamp) (o : ℤ),
        s[i]? = some (some ts) → ts.off = some o →
        (normalize_tz_series s)[i]? = some (some ⟨ts.wall - o, none⟩)) ∧
    (∀ (s : List (Option PyTimestamp)) (i : ℕ) (ts : PyTimestamp),
        s[i]? = some (some ts) → ts.off = none →
        (normalize_tz_series s)[i]? = some (some ts)) := by
  have hnorm : ∀ (w o : ℤ), normalize_timestamp (some ⟨w, some o⟩) = some ⟨w - o, none⟩ :=
    fun w o => rfl
  have hnaive : ∀ w : ℤ, normalize_timestamp (some ⟨w, none⟩) = some ⟨w, none⟩ :=
    fun w => rfl
  refine ⟨?_, ?_, ?_, ?_, ?_⟩
  · rintro ⟨w, off⟩ o h
    cases h
    exact ⟨hnorm w o, by simp [instant]⟩
  · rintro ⟨w, off⟩ h
    cases h
    exact hnaive w
  · rintro ⟨w₁, off₁⟩ ⟨w₂, off₂⟩ h₁ h₂ heq
    rcases Option.isSome_iff_exists.mp h₁ with ⟨o₁, rfl⟩
    rcases Option.isSome_iff_exists.mp h₂ with ⟨o₂, rfl⟩
    simp only [instant] at heq
    rw [hnorm, hnorm, heq]
  · intro s i ts o hget hoff
    have hany : s.any entryHasTz = true :=
      List.any_eq_true.mpr ⟨some ts, List.getElem?_mem hget, by simp [entryHasTz, hoff]⟩
    obtain ⟨w, _⟩ := ts
    cases hoff
    rw [normalize_tz_series, if_pos hany, List.getElem?_map, hget, Option.map_some', hnorm]
  · intro s i ts hget hoff
    rw [normalize_tz_series]
    by_cases hany : s.any entryHasTz = true
    · obtain ⟨w, _⟩ := ts
      cases hoff
      rw [if_pos hany, List.getElem?_map, hget, Option.map_some', hnaive]
    · rw [if_neg hany]
      exact hget

/-- Witness for C5: `+01:00`-style and behind-UTC representations of the same
moment (wall 100 with offset 60, wall 10 with offset −30) normalize to the
same naive timestamp, and a naive value passes through unchanged, also at the
column level. -/
theorem normalize_timestamp_utc_witness :
    normalize_timestamp (some ⟨100, some 60⟩) = some ⟨40, none⟩ ∧
    normalize_timestamp (some ⟨40, none⟩) = some ⟨40, none⟩ ∧
    normalize_timestamp (some ⟨100, some 60⟩) = normalize_timestamp (some ⟨10, some (-30)⟩) ∧
    (normalize_tz_series [some ⟨100, some 60⟩, some ⟨40, none⟩])[1]? = some (some ⟨40, none⟩) :=
  ⟨(normalize_timestamp_utc.1 ⟨100, some 60⟩ 60 rfl).1,
   normalize_timestamp_utc.2.1 ⟨40, none⟩ rfl,
   normalize_timestamp_utc.2.2.1 ⟨100, some 60⟩ ⟨10, some (-30)⟩ rfl rfl (by decide),
   normalize_timestamp_utc.2.2.2.2 [some ⟨100, some 60⟩, some ⟨40, none⟩] 1 ⟨40, none⟩ rfl rfl⟩

/-! ## `max_entities` truthiness (claim C10)

`plot_multiple_timelines` (src/timeline.py lines 437-439):

```
if max_entities:
    entity_ids = entity_ids[:max_entities]
```

Python truthiness: `None` and `0` are falsy, so the limit is applied only for
a non-zero integer. -/

/-- Python slice `l[:k]` for an arbitrary (possibly negative) integer `k`. -/
def pySliceTo {α : Type} (l : List α) (k : ℤ) : List α :=
  if 0 ≤ k then l.take k.toNat else l.take (l.length - (-k).toNat)

/-- The entity-limiting step of `plot_multiple_timelines`. -/
def limit_entities {α : Type} (entity_ids : List α) (max_entities : Option ℤ) : List α :=
  match max_entities with
  | none => entity_ids
  | some k => if k ≠ 0 then pySliceTo entity_ids k else entity_ids

/-- **C10.** `max_entities = 0` is falsy, so no limit is applied and every
entity remains; for positive `k` the first `k` entities (at most) are kept,
as a prefix of the original order. -/
theorem limit_entities_zero_is_no_limit {α : Type} :
    (∀ ids : List α, limit_entities ids (some 0) = ids) ∧
    (∀ ids : List α, limit_entities ids none = ids) ∧
    (∀ (ids : List α) (k : ℤ), 0 < k →
        limit_entities ids (some k) = ids.take k.toNat ∧
        (limit_entities ids (some k)).length ≤ k.toNat ∧
        limit_entities ids (some k) <+: ids) := by
  refine ⟨fun ids => by simp [limit_entities], fun ids => rfl, ?_⟩
  intro ids k hk
  have hkeq : limit_entities ids (some k) = ids.take k.toNat := by
    rw [limit_entities, if_pos (by omega), pySliceTo, if_pos (by omega)]
  refine ⟨hkeq, ?_, ?_⟩
  · rw [hkeq, List.length_take]
    omega
  · rw [hkeq]
    exact List.take_prefix _ _

/-- Witness for C10: three entities, `max_entities = 0` keeps all three,
`max_entities = 2` keeps the first two. -/
theorem limit_entities_zero_is_no_limit_witness :
    limit_entities ["a", "b", "c"] (some 0) = ["a", "b", "c"] ∧
    limit_entities ["a", "b", "c"] (some 2) = ["a", "b"] :=
  ⟨limit_entities_zero_is_no_limit.1 ["a", "b", "c"],
   ((limit_entities_zero_is_no_limit.2.2 ["a", "b", "c"] 2 (by norm_num)).1)⟩

/-! ## Timestamp-column auto-detection (claim C7) -/

/-- `pat` occurs as a contiguous sublist of `l`. -/
def containsSub (l pat : List Char) : Bool :=
  match l with
  | [] => pat.isEmpty
  | _ :: tl => pat.isPrefixOf l || containsSub tl pat

/-- Substring test on strings. -/
def strContainsSub (s pat : String) : Bool :=
  containsSub s.data pat.data

/-- Suffix test on strings. -/
def strEndsWith (s suff : String) : Bool :=
  suff.data.isSuffixOf s.data

/-- Prefix test on strings. -/
def strStartsWith (s pre : String) : Bool :=
  pre.data.isPrefixOf s.data

/-- Modelled from the spec: `detect_timestamp_columns` is imported by
`src/timeline.py` from `utils` (and exercised by `src/tests/test_utils.py`)
but its definition is absent from the provided `utils.py`.  The spec
documents it as selecting exactly the column names with suffix `_utc`, `_at`,
`_time` or `_date`, or containing `timestamp` or `datetime`, or starting with
`date` or `time`, while excluding any name containing `invalid`. -/
def isTimestampColumn (c : String) : Bool :=
  !(strContainsSub c "invalid") &&
  (strEndsWith c "_utc" || strEndsWith c "_at" || strEndsWith c "_time" ||
   strEndsWith c "_date" || strContainsSub c "timestamp" || strContainsSub c "datetime" ||
   strStartsWith c "date" || strStartsWith c "time")

/-- Modelled from the spec: the auto-detection keeps, in order, the column
names matching `isTimestampColumn`. -/
def detect_timestamp_columns (columns : List String) : List String :=
  columns.filter isTimestampColumn

/-- The model agrees with the expectations of `test_detect_timestamp_columns`
in `src/tests/test_utils.py`. -/
lemma detect_timestamp_columns_matches_tests :
    detect_timestamp_columns ["id", "name", "created_at", "updated_at", "timestamp_field",
        "date_modified", "some_time_utc"] =
      ["created_at", "updated_at", "timestamp_field", "date_modified", "some_time_utc"] ∧
    detect_timestamp_columns ["id", "created_at", "name", "updated_at", "invalid_date"] =
      ["created_at", "updated_at"] := by
  constructor <;> decide

/-- **C7.** A column name is selected by the auto-detection iff it occurs in
the input and matches the documented pattern (suffixes `_utc`, `_at`,
`_time`, `_date`; substrings `timestamp`, `datetime`; prefixes `date`,
`time`) and does not contain `invalid`. -/
theorem detect_timestamp_columns_spec (columns : List String) (c : String) :
    c ∈ detect_timestamp_columns columns ↔
      c ∈ columns ∧
      ((strEndsWith c "_utc" = true ∨ strEndsWith c "_at" = true ∨
        strEndsWith c "_time" = true ∨ strEndsWith c "_date" = true ∨
        strContainsSub c "timestamp" = true ∨ strContainsSub c "datetime" = true ∨
        strStartsWith c "date" = true ∨ strStartsWith c "time" = true) ∧
       strContainsSub c "invalid" = false) := by
  rw [detect_timestamp_columns, List.mem_filter]
  simp only [isTimestampColumn, Bool.and_eq_true, Bool.or_eq_true, Bool.not_eq_true']
  tauto

/-- Witness for C7: `created_at` is detected among `["id", "created_at"]`. -/
theorem detect_timestamp_columns_spec_witness :
    "created_at" ∈ detect_timestamp_columns ["id", "created_at"] :=
  (detect_timestamp_columns_spec ["id", "created_at"] "created_at").mpr (by decide)

/-! ## Timestamp formatting and re-parsing (claim C8)

`timeline.format_timestamp` (src/timeline.py lines 107-121):

```
return dt.strftime("%Y-%m-%d %H:%M:%S.%f")[:-3]  # truncate to milliseconds
```

`utils.detect_date_format` (src/utils.py lines 119-156) re-parses display
strings by trying `datetime.strptime` against an ordered format list whose
first two entries are `'%Y-%m-%dT%H:%M:%S.%fZ'` and `'%Y-%m-%d %H:%M:%S.%f'`.
Strings produced by `format_timestamp` contain a space (not `T`), so the
first pattern never matches and the second is the first full match.

CPython's `strftime` zero-pads each numeric directive (`%Y` to 4 digits for
the years representable here, the others to 2, `%f` to 6), and
`_strptime`'s regexes read `%Y` as exactly four digits, the two-digit fields
as two digits (with a one-digit fallback), and `%f` as one to six digits
right-padded to microseconds; the parsed fields must consume the whole string
and are then validated by the `datetime` constructor.  Both are modelled
below over character lists. -/

/-- A naive `datetime` value (the canonical timestamp of the pipeline). -/
structure Datetime where
  year : ℕ
  month : ℕ
  day : ℕ
  hour : ℕ
  minute : ℕ
  second : ℕ
  usec : ℕ
deriving DecidableEq

/-- Little-endian decimal digits, via explicit fuel so that it computes by
structural recursion (`fuel ≥ n` suffices). -/
def natDigitsRev (fuel : ℕ) (n : ℕ) : List ℕ :=
  match fuel with
  | 0 => []
  | fuel + 1 => if n = 0 then [] else n % 10 :: natDigitsRev fuel (n / 10)

/-- Little-endian decimal digits of `n`. -/
def natDigitsLE (n : ℕ) : List ℕ :=
  natDigitsRev n n

/-- The decimal digit character for `d < 10`. -/
def charOfDigit (d : ℕ) : Char :=
  Char.ofNat (48 + d)

/-- The value of a decimal digit character. -/
def digitVal (c : Char) : ℕ :=
  c.toNat - 48

/-- `n` rendered in decimal, zero-padded on the left to width `w` — the
output of a zero-padding `strftime` numeric directive. -/
def padNum (w n : ℕ) : List Char :=
  List.replicate (w - (natDigitsLE n).length) '0' ++ (natDigitsLE n).reverse.map charOfDigit

/-- `int(...)` on a digit string. -/
def parseNat (cs : List Char) : ℕ :=
  cs.foldl (fun a c => a * 10 + digitVal c) 0

/-- `dt.strftime("%Y-%m-%d %H:%M:%S.%f")`. -/
def strftime_fmt (dt : Datetime) : List Char :=
  padNum 4 dt.year ++ '-' :: (padNum 2 dt.month ++ '-' :: (padNum 2 dt.day ++ ' ' ::
    (padNum 2 dt.hour ++ ':' :: (padNum 2 dt.minute ++ ':' ::
      (padNum 2 dt.second ++ '.' :: padNum 6 dt.usec)))))

/-- `timeline.format_timestamp`: the `strftime` output with the last three
characters cut off (`[:-3]`), leaving milliseconds. -/
def format_timestamp (dt : Datetime) : List Char :=
  (strftime_fmt dt).take ((strftime_fmt dt).length - 3)

/-- Match one literal character of the format. -/
def lit (c : Char) : List Char → Option (List Char)
  | x :: rest => if x = c then some rest else none
  | [] => none

/-- `%Y` in CPython `_strptime`: exactly four digits. -/
def readYear4 : List Char → Option (ℕ × List Char)
  | a :: b :: c :: d :: rest =>
      if a.isDigit = true ∧ b.isDigit = true ∧ c.isDigit = true ∧ d.isDigit = true then
        some (parseNat [a, b, c, d], rest)
      else none
  | _ => none

/-- A two-digit numeric directive of CPython `_strptime` (`%m`, `%d`, `%H`,
`%M`, `%S`): preferably two digits whose value lies in `[lo, hi]`, else a
single digit in `[lo, min hi 9]`. -/
def readNum2 (lo hi : ℕ) : List Char → Option (ℕ × List Char)
  | a :: b :: rest =>
      if a.isDigit = true ∧ b.isDigit = true ∧ lo ≤ parseNat [a, b] ∧ parseNat [a, b] ≤ hi then
        some (parseNat [a, b], rest)
      else if a.isDigit = true ∧ lo ≤ parseNat [a] ∧ parseNat [a] ≤ min hi 9 then
        some (parseNat [a], b :: rest)
      else none
  | [a] =>
      if a.isDigit = true ∧ lo ≤ parseNat [a] ∧ parseNat [a] ≤ min hi 9 then
        some (parseNat [a], [])
      else none
  | [] => none

/-- `%f`: one to six digits, greedily, right-padded to microseconds. -/
def readFrac (cs : List Char) : Option (ℕ × List Char) :=
  let ds := (cs.takeWhile (fun c => c.isDigit)).take 6
  if ds.isEmpty then none
  else some (parseNat ds * 10 ^ (6 - ds.length), cs.drop ds.length)

/-- `True` iff `y` is a Gregorian leap year. -/
def isLeapYear (y : ℕ) : Bool :=
  y % 4 == 0 && (y % 100 != 0 || y % 400 == 0)

/-- Number of days of month `mo` in year `y`. -/
def daysInMonth (y mo : ℕ) : ℕ :=
  if mo = 2 then (if isLeapYear y then 29 else 28)
  else if mo = 4 ∨ mo = 6 ∨ mo = 9 ∨ mo = 11 then 30
  else 31

/-- The `datetime(...)` constructor validation performed at the end of
`datetime.strptime`. -/
def mkDatetime (y mo d h mi s us : ℕ) : Option Datetime :=
  if 1 ≤ y ∧ y ≤ 9999 ∧ 1 ≤ mo ∧ mo ≤ 12 ∧ 1 ≤ d ∧ d ≤ daysInMonth y mo ∧
      h ≤ 23 ∧ mi ≤ 59 ∧ s ≤ 59 ∧ us ≤ 999999 then
    some ⟨y, mo, d, h, mi, s, us⟩
  else none

/-- `datetime.strptime(s, '%Y-%m-%d %H:%M:%S.%f')`, the second pattern of
`detect_date_format`'s list. -/
def strptime_space_ms (cs : List Char) : Option Datetime :=
  match readYear4 cs with
  | none => none
  | some (y, cs) =>
  match lit '-' cs with
  | none => none
  | some cs =>
  match readNum2 1 12 cs with
  | none => none
  | some (mo, cs) =>
  match lit '-' cs with
  | none => none
  | some cs =>
  match readNum2 1 31 cs with
  | none => none
  | some (d, cs) =>
  match lit ' ' cs with
  | none => none
  | some cs =>
  match readNum2 0 23 cs with
  | none => none
  | some (h, cs) =>
  match lit ':' cs with
  | none => none
  | some cs =>
  match readNum2 0 59 cs with
  | none => none
  | some (mi, cs) =>
  match lit ':' cs with
  | none => none
  | some cs =>
  match readNum2 0 61 cs with
  | none => none
  | some (s, cs) =>
  match lit '.' cs with
  | none => none
  | some cs =>
  match readFrac cs with
  | none => none
  | some (us, cs) =>
  if cs.isEmpty then mkDatetime y mo d h mi s us else none

/-- `datetime.strptime(s, '%Y-%m-%dT%H:%M:%S.%fZ')`, the first pattern of
`detect_date_format`'s list.  It requires a literal `T` between date and
time, so it fails on `format_timestamp` output (which has a space there). -/
def strptime_isoTZ (cs : List Char) : Option Datetime :=
  match readYear4 cs with
  | none => none
  | some (y, cs) =>
  match lit '-' cs with
  | none => none
  | some cs =>
  match readNum2 1 12 cs with
  | none => none
  | some (mo, cs) =>
  match lit '-' cs with
  | none => none
  | some cs =>
  match readNum2 1 31 cs with
  | none => none
  | some (d, cs) =>
  match lit 'T' cs with
  | none => none
  | some cs =>
  match readNum2 0 23 cs with
  | none => none
  | some (h, cs) =>
  match lit ':' cs with
  | none => none
  | some cs =>
  match readNum2 0 59 cs with
  | none => none
  | some (mi, cs) =>
  match lit ':' cs with
  | none => none
  | some cs =>
  match readNum2 0 61 cs with
  | none => none
  | some (s, cs) =>
  match lit '.' cs with
  | none => none
  | some cs =>
  match readFrac cs with
  | none => none
  | some (us, cs) =>
  match lit 'Z' cs with
  | none => none
  | some cs =>
  if cs.isEmpty then mkDatetime y mo d h mi s us else none

lemma natDigitsRev_eq_digits : ∀ (fuel n : ℕ), n ≤ fuel → natDigitsRev fuel n = Nat.digits 10 n := by
  intro fuel
  induction fuel with
  | zero =>
    intro n hn
    obtain rfl : n = 0 := by omega
    rw [show natDigitsRev 0 0 = [] from rfl, Nat.digits_zero]
  | succ fuel ih =>
    intro n hn
    rw [natDigitsRev]
    by_cases h0 : n = 0
    · subst h0
      rw [if_pos rfl, Nat.digits_zero]
    · rw [if_neg h0, ih (n / 10) (by omega),
        ← Nat.digits_def' (by norm_num : (1 : ℕ) < 10) (by omega : 0 < n)]

lemma natDigitsLE_eq_digits (n : ℕ) : natDigitsLE n = Nat.digits 10 n :=
  natDigitsRev_eq_digits n n le_rfl

lemma digits_length_le {n w : ℕ} (h : n < 10 ^ w) : (Nat.digits 10 n).length ≤ w := by
  rcases Nat.eq_zero_or_pos n with rfl | hn
  · simp
  · by_contra hlt
    push_neg at hlt
    have h1 : 10 ^ (Nat.digits 10 n).length ≤ 10 * n :=
      Nat.base_pow_length_digits_le 10 n (by norm_num) (by omega)
    have h2 : 10 ^ (w + 1) ≤ 10 ^ (Nat.digits 10 n).length :=
      Nat.pow_le_pow_right (by norm_num) (by omega)
    have h3 : 10 * n < 10 ^ (w + 1) := by
      rw [pow_succ]
      have : 10 * n < 10 * 10 ^ w := by omega
      omega
    omega

lemma digitVal_charOfDigit : ∀ d : ℕ, d < 10 → digitVal (charOfDigit d) = d := by decide

lemma charOfDigit_isDigit : ∀ d : ℕ, d < 10 → (charOfDigit d).isDigit = true := by decide

lemma foldl_digit_zeros (z : ℕ) :
    List.foldl (fun a c => a * 10 + digitVal c) 0 (List.replicate z '0') = 0 := by
  induction z with
  | zero => rfl
  | succ z ih =>
    rw [List.replicate_succ, List.foldl_cons,
      show (0 * 10 + digitVal '0') = 0 from by decide]
    exact ih

lemma parseNat_replicate_zero_append (z : ℕ) (cs : List Char) :
    parseNat (List.replicate z '0' ++ cs) = parseNat cs := by
  rw [parseNat, parseNat, List.foldl_append, foldl_digit_zeros]

lemma parseNat_rev_digits :
    ∀ L : List ℕ, (∀ d ∈ L, d < 10) →
      parseNat (L.reverse.map charOfDigit) = Nat.ofDigits 10 L := by
  intro L
  induction L with
  | nil => intro _; rfl
  | cons d L ih =>
    intro hdig
    rw [List.reverse_cons, List.map_append, parseNat, List.foldl_append]
    simp only [List.map_cons, List.map_nil, List.foldl_cons, List.foldl_nil]
    rw [show List.foldl (fun a c => a * 10 + digitVal c) 0 (L.reverse.map charOfDigit) =
        Nat.ofDigits 10 L from ih (fun x hx => hdig x (by simp [hx])),
      digitVal_charOfDigit d (hdig d (by simp)), Nat.ofDigits_cons]
    omega

lemma parseNat_padNum (w n : ℕ) : parseNat (padNum w n) = n := by
  rw [padNum, parseNat_replicate_zero_append, natDigitsLE_eq_digits,
    parseNat_rev_digits _ (fun d hd => Nat.digits_lt_base (by norm_num) hd),
    Nat.ofDigits_digits]

lemma padNum_length {w n : ℕ} (h : n < 10 ^ w) : (padNum w n).length = w := by
  have hle : (natDigitsLE n).length ≤ w := by
    rw [natDigitsLE_eq_digits]
    exact digits_length_le h
  rw [padNum]
  simp only [List.length_append, List.length_replicate, List.length_map, List.length_reverse]
  omega

lemma padNum_isDigit {w n : ℕ} : ∀ c ∈ padNum w n, c.isDigit = true := by
  intro c hc
  rw [padNum, List.mem_append] at hc
  rcases hc with hc | hc
  · rw [List.eq_of_mem_replicate hc]
    decide
  · rw [List.mem_map] at hc
    obtain ⟨d, hd, rfl⟩ := hc
    rw [List.mem_reverse, natDigitsLE_eq_digits] at hd
    exact charOfDigit_isDigit d (Nat.digits_lt_base (by norm_num) hd)

lemma lit_cons_self (c : Char) (rest : List Char) : lit c (c :: rest) = some rest := by
  simp [lit]

lemma lit_cons_ne {a c : Char} (h : a ≠ c) (rest : List Char) : lit c (a :: rest) = none := by
  simp [lit, h]

lemma readYear4_padNum {y : ℕ} (h : y < 10000) (rest : List Char) :
    readYear4 (padNum 4 y ++ rest) = some (y, rest) := by
  have hlen : (padNum 4 y).length = 4 := padNum_length (lt_of_lt_of_le h (by norm_num))
  have hdig : ∀ c ∈ padNum 4 y, c.isDigit = true := padNum_isDigit
  have hval : parseNat (padNum 4 y) = y := parseNat_padNum 4 y
  rcases hp : padNum 4 y with _ | ⟨a, _ | ⟨b, _ | ⟨c, _ | ⟨d, _ | ⟨e, tl⟩⟩⟩⟩⟩ <;>
      rw [hp] at hlen <;> simp at hlen
  rw [hp] at hdig hval
  simp only [List.cons_append, List.nil_append, readYear4]
  rw [hval, if_pos ⟨hdig a (by simp), hdig b (by simp), hdig c (by simp), hdig d (by simp)⟩]

lemma readNum2_padNum (lo hi : ℕ) {n : ℕ} (h : n < 100) (hlo : lo ≤ n) (hhi : n ≤ hi)
    (rest : List Char) : readNum2 lo hi (padNum 2 n ++ rest) = some (n, rest) := by
  have hlen : (padNum 2 n).length = 2 := padNum_length (lt_of_lt_of_le h (by norm_num))
  have hdig : ∀ c ∈ padNum 2 n, c.isDigit = true := padNum_isDigit
  have hval : parseNat (padNum 2 n) = n := parseNat_padNum 2 n
  rcases hp : padNum 2 n with _ | ⟨a, _ | ⟨b, _ | ⟨c, tl⟩⟩⟩ <;>
      rw [hp] at hlen <;> simp at hlen
  rw [hp] at hdig hval
  simp only [List.cons_append, List.nil_append, readNum2]
  rw [hval, if_pos ⟨hdig a (by simp), hdig b (by simp), hlo, hhi⟩]

lemma readFrac_padNum3 {q : ℕ} (h : q < 1000) :
    readFrac (padNum 3 q) = some (q * 1000, []) := by
  have hlen : (padNum 3 q).length = 3 := padNum_length (lt_of_lt_of_le h (by norm_num))
  have hdig : ∀ c ∈ padNum 3 q, c.isDigit = true := padNum_isDigit
  have hval : parseNat (padNum 3 q) = q := parseNat_padNum 3 q
  have htw : (padNum 3 q).takeWhile (fun c => c.isDigit) = padNum 3 q :=
    List.takeWhile_eq_self_iff.mpr hdig
  have ht6 : ((padNum 3 q).takeWhile (fun c => c.isDigit)).take 6 = padNum 3 q := by
    rw [htw]
    exact List.take_of_length_le (by omega)
  have hne : (padNum 3 q).isEmpty = false := by
    rcases hp : padNum 3 q with _ | ⟨a, tl⟩
    · rw [hp] at hlen
      simp at hlen
    · rfl
  have hdrop : List.drop 3 (padNum 3 q) = [] := by
    nth_rewrite 1 [← hlen]
    exact List.drop_length _
  rw [readFrac]
  simp only [ht6, hne, Bool.false_eq_true, if_false, hval, hlen]
  rw [show (10 : ℕ) ^ (6 - 3) = 1000 from by norm_num, hdrop]

lemma padNum_six_thousand {q : ℕ} (hq : q < 1000) :
    padNum 6 (1000 * q) = padNum 3 q ++ ['0', '0', '0'] := by
  rcases Nat.eq_zero_or_pos q with rfl | hpos
  · decide
  · have h1 : Nat.digits 10 (1000 * q) = 0 :: 0 :: 0 :: Nat.digits 10 q := by
      rw [Nat.digits_def' (by norm_num : (1 : ℕ) < 10) (by positivity),
        show 1000 * q % 10 = 0 by omega, show 1000 * q / 10 = 100 * q by omega,
        Nat.digits_def' (by norm_num : (1 : ℕ) < 10) (by positivity),
        show 100 * q % 10 = 0 by omega, show 100 * q / 10 = 10 * q by omega,
        Nat.digits_def' (by norm_num : (1 : ℕ) < 10) (by positivity),
        show 10 * q % 10 = 0 by omega, show 10 * q / 10 = q by omega]
    have hlen : (Nat.digits 10 q).length ≤ 3 :=
      digits_length_le (lt_of_lt_of_le hq (by norm_num))
    rw [padNum, padNum, natDigitsLE_eq_digits, natDigitsLE_eq_digits, h1]
    simp only [List.reverse_cons, List.map_append, List.map_cons, List.map_nil,
      List.length_cons, show charOfDigit 0 = '0' from rfl]
    rw [show (Nat.digits 10 q).length + 1 + 1 + 1 = (Nat.digits 10 q).length + 3 by omega,
      show 6 - ((Nat.digits 10 q).length + 3) = 3 - (Nat.digits 10 q).length by omega]
    simp [List.append_assoc]

/-- On millisecond-precision inputs the `strftime`-and-truncate rendering is
the zero-padded date-time digits followed by the three millisecond digits. -/
lemma format_timestamp_eq (dt : Datetime) (hms : dt.usec % 1000 = 0)
    (hus : dt.usec < 1000000) :
    format_timestamp dt =
      padNum 4 dt.year ++ '-' :: (padNum 2 dt.month ++ '-' :: (padNum 2 dt.day ++ ' ' ::
        (padNum 2 dt.hour ++ ':' :: (padNum 2 dt.minute ++ ':' ::
          (padNum 2 dt.second ++ '.' :: padNum 3 (dt.usec / 1000)))))) := by
  have hq : dt.usec = 1000 * (dt.usec / 1000) := by omega
  have hsplit : padNum 6 dt.usec = padNum 3 (dt.usec / 1000) ++ ['0', '0', '0'] := by
    rw [show padNum 6 dt.usec = padNum 6 (1000 * (dt.usec / 1000)) from by rw [← hq]]
    exact padNum_six_thousand (by omega)
  have hXY : strftime_fmt dt =
      (padNum 4 dt.year ++ '-' :: (padNum 2 dt.month ++ '-' :: (padNum 2 dt.day ++ ' ' ::
        (padNum 2 dt.hour ++ ':' :: (padNum 2 dt.minute ++ ':' ::
          (padNum 2 dt.second ++ '.' :: padNum 3 (dt.usec / 1000))))))) ++ ['0', '0', '0'] := by
    rw [strftime_fmt, hsplit]
    simp [List.append_assoc]
  rw [format_timestamp, hXY, List.length_append,
    show (['0', '0', '0'] : List Char).length = 3 from rfl, Nat.add_sub_cancel]
  exact List.take_left _ _

lemma daysInMonth_le_31 (y mo : ℕ) : daysInMonth y mo ≤ 31 := by
  unfold daysInMonth
  split_ifs <;> omega

/-- **C8.** For every canonical timestamp of at most millisecond precision
(with the 4-digit years the pipeline's `pandas` timestamps always carry),
formatting with `format_timestamp` and re-parsing the display string with the
first matching supported pattern of `detect_date_format` — the first listed
pattern `'%Y-%m-%dT%H:%M:%S.%fZ'` fails on the space-separated string, and
`'%Y-%m-%d %H:%M:%S.%f'` matches — recovers exactly the same instant. -/
theorem format_parse_roundtrip (dt : Datetime)
    (hy1 : 1000 ≤ dt.year) (hy2 : dt.year ≤ 9999)
    (hmo1 : 1 ≤ dt.month) (hmo2 : dt.month ≤ 12)
    (hd1 : 1 ≤ dt.day) (hd2 : dt.day ≤ daysInMonth dt.year dt.month)
    (hh : dt.hour ≤ 23) (hmi : dt.minute ≤ 59) (hs : dt.second ≤ 59)
    (hus : dt.usec < 1000000) (hms : dt.usec % 1000 = 0) :
    strptime_isoTZ (format_timestamp dt) = none ∧
    strptime_space_ms (format_timestamp dt) = some dt := by
  have hd31 : dt.day ≤ 31 := le_trans hd2 (daysInMonth_le_31 _ _)
  rw [format_timestamp_eq dt hms hus]
  constructor
  · simp only [strptime_isoTZ,
      readYear4_padNum (show dt.year < 10000 by omega),
      lit_cons_self,
      readNum2_padNum 1 12 (show dt.month < 100 by omega) hmo1 hmo2,
      readNum2_padNum 1 31 (show dt.day < 100 by omega) hd1 hd31,
      lit_cons_ne (show (' ' : Char) ≠ 'T' from by decide)]
  · simp only [strptime_space_ms,
      readYear4_padNum (show dt.year < 10000 by omega),
      lit_cons_self,
      readNum2_padNum 1 12 (show dt.month < 100 by omega) hmo1 hmo2,
      readNum2_padNum 1 31 (show dt.day < 100 by omega) hd1 hd31,
      readNum2_padNum 0 23 (show dt.hour < 100 by omega) (Nat.zero_le _) hh,
      readNum2_padNum 0 59 (show dt.minute < 100 by omega) (Nat.zero_le _) hmi,
      readNum2_padNum 0 61 (show dt.second < 100 by omega) (Nat.zero_le _) (by omega),
      readFrac_padNum3 (show dt.usec / 1000 < 1000 by omega)]
    rw [Nat.div_mul_cancel (Nat.dvd_of_mod_eq_zero hms),
      if_pos (show ([] : List Char).isEmpty = true from rfl), mkDatetime,
      if_pos (⟨by omega, by omega, hmo1, hmo2, hd1, hd2, hh, hmi, hs, by omega⟩ :
        1 ≤ dt.year ∧ dt.year ≤ 9999 ∧ 1 ≤ dt.month ∧ dt.month ≤ 12 ∧ 1 ≤ dt.day ∧
        dt.day ≤ daysInMonth dt.year dt.month ∧ dt.hour ≤ 23 ∧ dt.minute ≤ 59 ∧
        dt.second ≤ 59 ∧ dt.usec ≤ 999999)]

/-- Witness for C8 at the timestamp 2024-01-01 12:30:45.123000. -/
theorem format_parse_roundtrip_witness :
    strptime_isoTZ (format_timestamp ⟨2024, 1, 1, 12, 30, 45, 123000⟩) = none ∧
    strptime_space_ms (format_timestamp ⟨2024, 1, 1, 12, 30, 45, 123000⟩) =
      some ⟨2024, 1, 1, 12, 30, 45, 123000⟩ :=
  format_parse_roundtrip ⟨2024, 1, 1, 12, 30, 45, 123000⟩ (by decide) (by decide) (by decide)
    (by decide) (by decide) (by decide) (by decide) (by decide) (by decide) (by decide)
    (by decide)

end TimelineViz
